import Mathlib

/-!
Verification of the poc_mining submission pipeline.

Shallow embedding of the candidate data model and priority ordering from
src/src/com/client.rs, the submission dispatcher and façade from
src/src/requests.rs, and (modelled from the spec, as its source file is not
among the given sources) the priority-coalescing retry queue
`crate::future::prio_retry::PrioRetry`.
-/

namespace PocMining

/-- A 32-byte generation signature, as in the Rust field `gen_sig: [u8; 32]`. -/
def GenSig : Type := Fin 32 → Fin 256

instance : DecidableEq GenSig :=
  fun a b => Fintype.decidablePiFintype a b

/-- Embedding of `struct SubmissionParameters` (src/src/com/client.rs, lines 40-49).
Rust `u64` fields are modelled as `Nat`; no arithmetic is performed on them, only
comparisons, so overflow never matters. -/
structure SubmissionParameters where
  account_id : Nat
  nonce : Nat
  height : Nat
  block : Nat
  deadline_unadjusted : Nat
  deadline : Nat
  gen_sig : GenSig
deriving DecidableEq

/-- Embedding of `impl Ord for SubmissionParameters::cmp`
(src/src/com/client.rs, lines 55-73):
block compared first, then generation signature equality, then `deadline <=`
(with `Greater` on ties), and `Less` for a differing signature at equal block. -/
def SubmissionParameters.cmp (a other : SubmissionParameters) : Ordering :=
  if a.block < other.block then
    Ordering.lt
  else if a.block > other.block then
    Ordering.gt
  else if a.gen_sig = other.gen_sig then
    -- on the same chain, best deadline wins
    (if a.deadline ≤ other.deadline then Ordering.gt else Ordering.lt)
  else
    -- switched to a new chain
    Ordering.lt

/-- Embedding of `impl PartialOrd for SubmissionParameters::partial_cmp`
(src/src/com/client.rs, lines 75-79): always `Some(cmp)`. -/
def SubmissionParameters.partialCmp (a other : SubmissionParameters) :
    Option Ordering :=
  some (SubmissionParameters.cmp a other)

/-- Helper: the comparison never returns `Ordering.eq`. -/
theorem cmp_gt_or_lt (a b : SubmissionParameters) :
    SubmissionParameters.cmp a b = Ordering.gt ∨
      SubmissionParameters.cmp a b = Ordering.lt := by
  unfold SubmissionParameters.cmp
  split_ifs <;> simp

/-- Concrete generation signatures for witnesses and counterexamples. -/
def g0 : GenSig := fun _ => 0

def g1 : GenSig := fun _ => 1

theorem g0_ne_g1 : g0 ≠ g1 := by
  intro h
  have h0 := congrFun h 0
  simp [g0, g1] at h0

/-- Concrete candidate: block 10, fork g0, adjusted deadline 500, nonce 1. -/
def candA : SubmissionParameters :=
  { account_id := 7, nonce := 1, height := 10, block := 10,
    deadline_unadjusted := 900, deadline := 500, gen_sig := g0 }

/-- Concrete candidate: identical to `candA` except for the nonce. -/
def candB : SubmissionParameters :=
  { account_id := 7, nonce := 2, height := 10, block := 10,
    deadline_unadjusted := 900, deadline := 500, gen_sig := g0 }

/-- Concrete candidate: same block as `candA`, different fork, better deadline. -/
def candC : SubmissionParameters :=
  { account_id := 7, nonce := 3, height := 10, block := 10,
    deadline_unadjusted := 100, deadline := 100, gen_sig := g1 }

/-- Concrete candidate: higher block than `candA`, worse deadline. -/
def candD : SubmissionParameters :=
  { account_id := 7, nonce := 4, height := 11, block := 11,
    deadline_unadjusted := 9999, deadline := 9999, gen_sig := g1 }

/-- C1: a candidate targeting a strictly larger block always ranks strictly
higher, and one targeting a strictly smaller block always ranks strictly lower,
independent of deadlines and generation signatures. -/
theorem cmp_block_dominates (a b : SubmissionParameters) :
    (b.block < a.block → SubmissionParameters.cmp a b = Ordering.gt) ∧
      (a.block < b.block → SubmissionParameters.cmp a b = Ordering.lt) := by
  constructor
  · intro h
    unfold SubmissionParameters.cmp
    rw [if_neg (Nat.lt_asymm h), if_pos h]
  · intro h
    unfold SubmissionParameters.cmp
    rw [if_pos h]

/-- C1 witness: `candD` has a larger block than `candA` and ranks higher;
`candA` ranks lower against `candD`. -/
theorem cmp_block_dominates_witness :
    SubmissionParameters.cmp candD candA = Ordering.gt ∧
      SubmissionParameters.cmp candA candD = Ordering.lt :=
  ⟨(cmp_block_dominates candD candA).1 (by decide),
   (cmp_block_dominates candA candD).2 (by decide)⟩

/-- C2: at equal block and equal generation signature, the first argument ranks
strictly higher exactly when its adjusted deadline is lower or equal, and
strictly lower otherwise. -/
theorem cmp_same_fork_deadline (a b : SubmissionParameters)
    (hb : a.block = b.block) (hs : a.gen_sig = b.gen_sig) :
    (SubmissionParameters.cmp a b = Ordering.gt ↔ a.deadline ≤ b.deadline) ∧
      (SubmissionParameters.cmp a b = Ordering.lt ↔ b.deadline < a.deadline) := by
  unfold SubmissionParameters.cmp
  rw [hb]
  simp only [lt_irrefl, if_false, gt_iff_lt, if_pos hs]
  constructor
  · constructor
    · intro h
      by_contra hd
      rw [if_neg hd] at h
      exact absurd h (by simp)
    · intro h
      rw [if_pos h]
  · constructor
    · intro h
      by_contra hd
      rw [if_pos (Nat.le_of_not_lt hd)] at h
      exact absurd h (by simp)
    · intro h
      rw [if_neg (Nat.not_le_of_lt h)]

/-- C2 witness: `candB` vs `candA` have equal block, fork and deadline, so the
incoming `candB` ranks strictly higher, and the higher-deadline `candA` ranks
strictly lower against `candC`-forkless comparison is not involved here. -/
theorem cmp_same_fork_deadline_witness :
    (SubmissionParameters.cmp candB candA = Ordering.gt ↔
      candB.deadline ≤ candA.deadline) ∧
      (SubmissionParameters.cmp candB candA = Ordering.lt ↔
        candA.deadline < candB.deadline) :=
  cmp_same_fork_deadline candB candA (by decide) rfl

/-- Helper: a fork mismatch at equal block compares `Less`. -/
theorem cmp_lt_of_fork_mismatch {a b : SubmissionParameters}
    (hb : a.block = b.block) (hs : a.gen_sig ≠ b.gen_sig) :
    SubmissionParameters.cmp a b = Ordering.lt := by
  unfold SubmissionParameters.cmp
  rw [hb]
  simp only [lt_irrefl, if_false, gt_iff_lt, if_neg hs]

/-- C3: at equal block but differing generation signature, the incoming (first)
candidate ranks strictly lower, regardless of the deadlines. -/
theorem cmp_fork_mismatch (a b : SubmissionParameters)
    (hb : a.block = b.block) (hs : a.gen_sig ≠ b.gen_sig) :
    SubmissionParameters.cmp a b = Ordering.lt :=
  cmp_lt_of_fork_mismatch hb hs

/-- C3 witness: `candC` is on fork g1 at the same block as `candA` (fork g0)
with a far better deadline, yet ranks strictly lower. -/
theorem cmp_fork_mismatch_witness :
    SubmissionParameters.cmp candC candA = Ordering.lt :=
  cmp_fork_mismatch candC candA (by decide) (by intro h; exact g0_ne_g1 h.symm)

/-- C4: every comparison resolves to strictly-higher or strictly-lower, never
to an equal outcome — including a candidate compared with itself. -/
theorem cmp_never_eq (a b : SubmissionParameters) :
    (SubmissionParameters.cmp a b = Ordering.gt ∨
        SubmissionParameters.cmp a b = Ordering.lt) ∧
      SubmissionParameters.cmp a b ≠ Ordering.eq ∧
      SubmissionParameters.cmp a a = Ordering.gt := by
  refine ⟨cmp_gt_or_lt a b, ?_, ?_⟩
  · rcases cmp_gt_or_lt a b with h | h <;> simp [h]
  · unfold SubmissionParameters.cmp
    simp

/-- C10: the comparison is not a strict order: it is irreflexive-violating
(`cmp a a = Greater`), and at equal block with differing signatures both
directions return `Less`, so the outcome depends on argument position; the
`partialCmp` of the total-order interface is always `some` of this comparison. -/
theorem cmp_not_strict_order :
    (∀ a : SubmissionParameters, SubmissionParameters.cmp a a = Ordering.gt) ∧
      (∀ a b : SubmissionParameters, a.block = b.block → a.gen_sig ≠ b.gen_sig →
        SubmissionParameters.cmp a b = Ordering.lt ∧
          SubmissionParameters.cmp b a = Ordering.lt) ∧
      (∀ a b : SubmissionParameters,
        SubmissionParameters.partialCmp a b =
          some (SubmissionParameters.cmp a b)) := by
  refine ⟨fun a => ?_, fun a b hb hs => ?_, fun a b => rfl⟩
  · unfold SubmissionParameters.cmp
    simp
  · exact ⟨cmp_lt_of_fork_mismatch hb hs, cmp_lt_of_fork_mismatch hb.symm (Ne.symm hs)⟩

/-- C10 witness: `candA` ranks strictly higher than itself, and `candA`/`candC`
(equal block, different forks) each rank strictly lower than the other. -/
theorem cmp_not_strict_order_witness :
    SubmissionParameters.cmp candA candA = Ordering.gt ∧
      SubmissionParameters.cmp candA candC = Ordering.lt ∧
      SubmissionParameters.cmp candC candA = Ordering.lt := by
  refine ⟨cmp_not_strict_order.1 candA, ?_⟩
  have h := cmp_not_strict_order.2.1 candA candC (by decide) g0_ne_g1
  exact ⟨h.1, h.2⟩

/-- Helper: case analysis for a `Greater` comparison. -/
theorem cmp_gt_cases {a b : SubmissionParameters}
    (h : SubmissionParameters.cmp a b = Ordering.gt) :
    b.block < a.block ∨
      (a.block = b.block ∧ a.gen_sig = b.gen_sig ∧ a.deadline ≤ b.deadline) := by
  unfold SubmissionParameters.cmp at h
  split_ifs at h with h1 h2 h3 h4
  · exact Or.inl h2
  · exact Or.inr ⟨Nat.le_antisymm (Nat.le_of_not_lt h2) (Nat.le_of_not_lt h1), h3, h4⟩

/-- Helper: case analysis for a `Less` comparison. -/
theorem cmp_lt_cases {a b : SubmissionParameters}
    (h : SubmissionParameters.cmp a b = Ordering.lt) :
    a.block < b.block ∨
      (a.block = b.block ∧ a.gen_sig ≠ b.gen_sig) ∨
      (a.block = b.block ∧ a.gen_sig = b.gen_sig ∧ b.deadline < a.deadline) := by
  unfold SubmissionParameters.cmp at h
  split_ifs at h with h1 h2 h3 h4
  · exact Or.inl h1
  · exact Or.inr (Or.inr ⟨Nat.le_antisymm (Nat.le_of_not_lt h2) (Nat.le_of_not_lt h1),
      h3, Nat.lt_of_not_le h4⟩)
  · exact Or.inr (Or.inl ⟨Nat.le_antisymm (Nat.le_of_not_lt h2) (Nat.le_of_not_lt h1), h3⟩)

/-- Helper: sufficient conditions for a `Less` comparison. -/
theorem cmp_lt_intro {a b : SubmissionParameters}
    (h : a.block < b.block ∨
      (a.block = b.block ∧ a.gen_sig ≠ b.gen_sig) ∨
      (a.block = b.block ∧ a.gen_sig = b.gen_sig ∧ b.deadline < a.deadline)) :
    SubmissionParameters.cmp a b = Ordering.lt := by
  unfold SubmissionParameters.cmp
  rcases h with h | ⟨hb, hs⟩ | ⟨hb, hs, hd⟩
  · rw [if_pos h]
  · rw [if_neg (by omega), if_neg (by omega), if_neg hs]
  · rw [if_neg (by omega), if_neg (by omega), if_pos hs, if_neg (Nat.not_le_of_lt hd)]

/-- The held candidate dominates another candidate when the other either ranks
strictly lower as an incoming offer, or ties it exactly in the three
priority-relevant fields (block, generation signature, adjusted deadline). -/
def Dominates (h y : SubmissionParameters) : Prop :=
  SubmissionParameters.cmp y h = Ordering.lt ∨
    (y.block = h.block ∧ y.gen_sig = h.gen_sig ∧ y.deadline = h.deadline)

instance (h y : SubmissionParameters) : Decidable (Dominates h y) := by
  unfold Dominates
  infer_instance

theorem dominates_refl (h : SubmissionParameters) : Dominates h h :=
  Or.inr ⟨rfl, rfl, rfl⟩

/-- Helper: a candidate that wins the comparison against the held one
dominates it. -/
theorem dominates_of_cmp_gt {c h : SubmissionParameters}
    (hgt : SubmissionParameters.cmp c h = Ordering.gt) : Dominates c h := by
  rcases cmp_gt_cases hgt with hblk | ⟨hb, hs, hd⟩
  · exact Or.inl (cmp_lt_intro (Or.inl hblk))
  · rcases Nat.lt_or_ge c.deadline h.deadline with hlt | hge
    · exact Or.inl (cmp_lt_intro (Or.inr (Or.inr ⟨hb.symm, hs.symm, hlt⟩)))
    · exact Or.inr ⟨hb.symm, hs.symm, Nat.le_antisymm hge hd⟩

/-- Helper: domination is preserved when a new candidate supersedes the held
one: everything the old held candidate dominated, the new one dominates too. -/
theorem dominates_trans {c h y : SubmissionParameters}
    (hgt : SubmissionParameters.cmp c h = Ordering.gt)
    (hd : Dominates h y) : Dominates c y := by
  rcases cmp_gt_cases hgt with hblk | ⟨hbc, hsc, hdc⟩
  · -- the new candidate targets a strictly larger block than the old held one
    rcases hd with hlt | ⟨hb, _, _⟩
    · rcases cmp_lt_cases hlt with h1 | ⟨h1, _⟩ | ⟨h1, _, _⟩
      · exact Or.inl (cmp_lt_intro (Or.inl (Nat.lt_trans h1 hblk)))
      · exact Or.inl (cmp_lt_intro (Or.inl (h1 ▸ hblk)))
      · exact Or.inl (cmp_lt_intro (Or.inl (h1 ▸ hblk)))
    · exact Or.inl (cmp_lt_intro (Or.inl (hb ▸ hblk)))
  · -- same block, same fork, new deadline less or equal to the old one
    rcases hd with hlt | ⟨hb, hs, hdl⟩
    · rcases cmp_lt_cases hlt with h1 | ⟨h1, h2⟩ | ⟨h1, h2, h3⟩
      · exact Or.inl (cmp_lt_intro (Or.inl (by omega)))
      · exact Or.inl (cmp_lt_intro (Or.inr (Or.inl ⟨by omega, fun he => h2 (he.trans hsc)⟩)))
      · exact Or.inl (cmp_lt_intro (Or.inr (Or.inr ⟨by omega, h2.trans hsc.symm,
          Nat.lt_of_le_of_lt hdc h3⟩)))
    · rcases Nat.lt_or_ge c.deadline y.deadline with hlt2 | hge2
      · exact Or.inl (cmp_lt_intro (Or.inr (Or.inr ⟨by omega, hs.trans hsc.symm, hlt2⟩)))
      · exact Or.inr ⟨by omega, hs.trans hsc.symm, by omega⟩

/-- Modelled from the spec: the PriorityRetryQueue of §4.2 — the type
`crate::future::prio_retry::PrioRetry` referenced from src/src/requests.rs
line 57, whose defining source file is not among the given sources. State is
`held: Option<Candidate>` and `nextEligibleTime: Timestamp` (absent when
immediately eligible); timestamps are modelled as `Nat` seconds. -/
structure PrioRetry where
  held : Option SubmissionParameters
  nextEligibleTime : Option Nat
deriving DecidableEq

/-- A fresh queue holds nothing and is immediately eligible. -/
def PrioRetry.empty : PrioRetry :=
  { held := none, nextEligibleTime := none }

/-- Modelled from the spec (§4.2 `offer`): if nothing is held, or the incoming
candidate compares `higher` against the held one, replace the held candidate and
clear the backoff; otherwise discard the offer — no error, no signal. -/
def PrioRetry.offer (q : PrioRetry) (c : SubmissionParameters) : PrioRetry :=
  match q.held with
  | none => { held := some c, nextEligibleTime := none }
  | some h =>
    if SubmissionParameters.cmp c h = Ordering.gt then
      { held := some c, nextEligibleTime := none }
    else q

/-- Offer a whole sequence of candidates, in arrival order. -/
def PrioRetry.offerAll (q : PrioRetry) (cs : List SubmissionParameters) : PrioRetry :=
  cs.foldl PrioRetry.offer q

/-- Modelled from the spec (§4.2 `reportFailure`): after a failed submit the
same candidate becomes eligible again only at `now + delay`. -/
def PrioRetry.reportFailure (q : PrioRetry) (now delay : Nat) : PrioRetry :=
  { q with nextEligibleTime := some (now + delay) }

/-- Modelled from the spec (§4.2 `reportTerminal`): success or definitive
rejection clears the held slot. -/
def PrioRetry.reportTerminal (q : PrioRetry) : PrioRetry :=
  { q with held := none }

theorem offer_of_held_none {q : PrioRetry} {c : SubmissionParameters}
    (h : q.held = none) :
    q.offer c = { held := some c, nextEligibleTime := none } := by
  unfold PrioRetry.offer
  rw [h]

theorem offer_of_cmp_gt {q : PrioRetry} {c h0 : SubmissionParameters}
    (h : q.held = some h0) (hgt : SubmissionParameters.cmp c h0 = Ordering.gt) :
    q.offer c = { held := some c, nextEligibleTime := none } := by
  simp [PrioRetry.offer, h, hgt]

theorem offer_of_cmp_not_gt {q : PrioRetry} {c h0 : SubmissionParameters}
    (h : q.held = some h0) (hgt : SubmissionParameters.cmp c h0 ≠ Ordering.gt) :
    q.offer c = q := by
  simp [PrioRetry.offer, h, hgt]

/-- Invariant tying queue state to the set of candidates offered so far. -/
def QueueConsistent (q : PrioRetry) (seen : List SubmissionParameters) : Prop :=
  (q.held = none → seen = []) ∧
    ∀ h, q.held = some h → h ∈ seen ∧ ∀ y ∈ seen, Dominates h y

theorem queueConsistent_offer {q : PrioRetry} {seen : List SubmissionParameters}
    {c : SubmissionParameters} (hq : QueueConsistent q seen) :
    QueueConsistent (q.offer c) (seen ++ [c]) := by
  obtain ⟨hnone, hsome⟩ := hq
  cases hh : q.held with
  | none =>
    have hseen := hnone hh
    subst hseen
    rw [offer_of_held_none hh]
    refine ⟨by intro h; exact absurd h (by simp), ?_⟩
    intro h hh2
    have : c = h := by simpa using hh2
    subst this
    exact ⟨by simp, by intro y hy; rw [show y = c by simpa using hy]; exact dominates_refl c⟩
  | some h0 =>
    have hinv := hsome h0 hh
    by_cases hc : SubmissionParameters.cmp c h0 = Ordering.gt
    · rw [offer_of_cmp_gt hh hc]
      refine ⟨by intro h; exact absurd h (by simp), ?_⟩
      intro h hh2
      have : c = h := by simpa using hh2
      subst this
      refine ⟨by simp, ?_⟩
      intro y hy
      rcases List.mem_append.mp hy with hy | hy
      · exact dominates_trans hc (hinv.2 y hy)
      · rw [show y = c by simpa using hy]
        exact dominates_refl c
    · rw [offer_of_cmp_not_gt hh hc]
      refine ⟨by intro h; rw [h] at hh; exact absurd hh (by simp), ?_⟩
      intro h hh2
      rw [hh] at hh2
      have : h0 = h := by simpa using hh2
      subst this
      refine ⟨List.mem_append.mpr (Or.inl hinv.1), ?_⟩
      intro y hy
      rcases List.mem_append.mp hy with hy | hy
      · exact hinv.2 y hy
      · rw [show y = c by simpa using hy]
        rcases cmp_gt_or_lt c h0 with h | h
        · exact absurd h hc
        · exact Or.inl h

theorem queueConsistent_offerAll (cs : List SubmissionParameters) :
    ∀ (q : PrioRetry) (seen : List SubmissionParameters),
      QueueConsistent q seen → QueueConsistent (q.offerAll cs) (seen ++ cs) := by
  induction cs with
  | nil => intro q seen h; simpa [PrioRetry.offerAll] using h
  | cons c cs ih =>
    intro q seen h
    have h2 := ih (q.offer c) (seen ++ [c]) (queueConsistent_offer h)
    simpa [PrioRetry.offerAll, List.append_assoc] using h2

theorem queueConsistent_empty : QueueConsistent PrioRetry.empty [] :=
  ⟨fun _ => rfl, fun h hh => by simp [PrioRetry.empty] at hh⟩

/-- C5 (amended): after any sequence of offers into an empty queue, at most one
candidate is held (the slot is a single `Option`); when one is held it was
offered, and every offered candidate either ranks strictly lower against it or
ties it exactly in block, generation signature and adjusted deadline; an offer
that does not compare strictly higher than the held candidate leaves the queue
unchanged (discard: no error, no signal); any offer either installs the offered
candidate or leaves the held slot as it was. -/
theorem prio_retry_best_slot :
    (∀ (cs : List SubmissionParameters) (h : SubmissionParameters),
        ((PrioRetry.empty).offerAll cs).held = some h →
          h ∈ cs ∧ ∀ y ∈ cs, Dominates h y) ∧
      (∀ (q : PrioRetry) (c h0 : SubmissionParameters), q.held = some h0 →
        SubmissionParameters.cmp c h0 ≠ Ordering.gt → q.offer c = q) ∧
      (∀ (q : PrioRetry) (c : SubmissionParameters),
        (q.offer c).held = some c ∨ (q.offer c).held = q.held) := by
  refine ⟨?_, ?_, ?_⟩
  · intro cs h hh
    have := (queueConsistent_offerAll cs PrioRetry.empty [] queueConsistent_empty).2 h hh
    simpa using this
  · intro q c h0 hh hgt
    exact offer_of_cmp_not_gt hh hgt
  · intro q c
    cases hh : q.held with
    | none => exact Or.inl (by rw [offer_of_held_none hh])
    | some h0 =>
      by_cases hc : SubmissionParameters.cmp c h0 = Ordering.gt
      · exact Or.inl (by rw [offer_of_cmp_gt hh hc])
      · exact Or.inr (by rw [offer_of_cmp_not_gt hh hc]; exact hh)

/-- C5 witness: offering `candA` then its equal-deadline duplicate `candB`
leaves `candB` held; `candB` was offered and dominates `candA` (they tie in the
three priority fields). -/
theorem prio_retry_best_slot_witness :
    candB ∈ [candA, candB] ∧ Dominates candB candA := by
  have h := prio_retry_best_slot.1 [candA, candB] candB (by decide)
  exact ⟨h.1, h.2 candA (by simp)⟩

/-- C5 counterexample to the claim as stated: after offering `candA` then the
equal-deadline duplicate `candB`, the queue holds `candB`, yet the distinct
discarded candidate `candA` compares strictly higher against `candB` — so the
held candidate is not "ranked highest (by compare) among all candidates
offered". -/
theorem prio_retry_held_not_highest :
    ((PrioRetry.empty).offerAll [candA, candB]).held = some candB ∧
      candA ≠ candB ∧
      SubmissionParameters.cmp candA candB = Ordering.gt := by
  refine ⟨by decide, by decide, by decide⟩

/-- Embedding of `enum FetchError` (src/src/com/api.rs, lines 68-73); the
opaque error payloads (`reqwest::Error`, `PoolError`, `substrate_subxt::Error`)
are modelled by their displayable content. -/
inductive FetchError
  | Http (msg : String)
  | Pool (code : Int) (message : String)
  | Substrate (msg : String)
deriving DecidableEq

/-- Embedding of `struct SubmitNonceResponse` (src/src/com/api.rs, lines 28-30). -/
structure SubmitNonceResponse where
  verify_result : Bool
deriving DecidableEq

/-- Log events emitted by src/src/requests.rs, one constructor per logging
statement: the empty `println!()` on a verified submission, the
`warn!("verify failed: ...")` carrying account id, height, nonce and deadline,
the `error!("submit nonce error: ...")`, and the
`error!("can't send submission params: ...")` in `submit_nonce`. -/
inductive LogEvent
  | printlnBlank
  | warnVerifyFailed (account_id height nonce deadline : Nat)
  | errorSubmitNonce (err : FetchError)
  | errorCantSendParams
deriving DecidableEq

/-- Embedding of the submission-outcome closure inside
`RequestHandler::handle_submissions` (src/src/requests.rs, lines 62-81): given
the parameters just submitted and the collaborator's result, it produces the
logs it emits, the list of candidates it re-enqueues on `tx_submit_data`
(the source never uses `tx_submit_data` in any branch, so this list is always
empty), and the `Ok(())` it returns to keep the dispatcher stream alive. -/
def handleSubmissionOutcome (p : SubmissionParameters)
    (res : Except FetchError SubmitNonceResponse) :
    List LogEvent × List SubmissionParameters × Except FetchError Unit :=
  match res with
  | Except.ok r =>
    if r.verify_result then
      ([LogEvent.printlnBlank], [], Except.ok ())
    else
      ([LogEvent.warnVerifyFailed p.account_id p.height p.nonce p.deadline],
        [], Except.ok ())
  | Except.error e => ([LogEvent.errorSubmitNonce e], [], Except.ok ())

/-- C6: what the dispatcher actually does on a failed submit — it logs the
error, re-enqueues nothing (no candidate ever returns to the queue, so no 3 s
retry can happen), and returns `Ok(())` (the failure is not fatal). The empty
middle component refutes the claimed requeue-and-retry behaviour. -/
theorem failed_submission_dropped (p : SubmissionParameters) (e : FetchError) :
    handleSubmissionOutcome p (Except.error e) =
      ([LogEvent.errorSubmitNonce e], [], Except.ok ()) :=
  rfl

/-- C7: on a successful submit with `verify_result == false` the dispatcher
logs exactly one warning carrying the candidate's account id, height, nonce
and adjusted deadline, re-enqueues nothing (the candidate is terminal and is
never submitted again), and keeps the loop alive; clearing the held slot
(`reportTerminal`) leaves the queue empty. -/
theorem rejected_submission_terminal (p : SubmissionParameters) :
    handleSubmissionOutcome p (Except.ok { verify_result := false }) =
      ([LogEvent.warnVerifyFailed p.account_id p.height p.nonce p.deadline],
        [], Except.ok ()) ∧
      ∀ q : PrioRetry, (q.reportTerminal).held = none :=
  ⟨rfl, fun _ => rfl⟩

/-- State of the unbounded mpsc submission channel
(`mpsc::UnboundedSender<SubmissionParameters>`, src/src/requests.rs line 17):
whether the receiving side is gone, and the candidates sent so far. -/
structure SubmitChannel where
  closed : Bool
  sent : List SubmissionParameters
deriving DecidableEq

/-- Embedding of `UnboundedSender::unbounded_send`: appends the item and
returns `Ok` when the channel is open; returns `Err` (a `SendError` carrying a
message) and leaves the channel unchanged when the receiver is gone. It never
blocks: it is a total function. -/
def SubmitChannel.unbounded_send (ch : SubmitChannel) (p : SubmissionParameters) :
    SubmitChannel × Except String Unit :=
  if ch.closed then
    (ch, Except.error "send failed because receiver is gone")
  else
    ({ ch with sent := ch.sent ++ [p] }, Except.ok ())

/-- Embedding of `MiningInfoResponse` (src/src/com/api.rs, lines 41-49). -/
structure MiningInfoResponse where
  generation_signature : GenSig
  base_target : Nat
  height : Nat
  target_deadline : Nat
deriving DecidableEq

/-- The collaborator client of src/src/com/client.rs, carried abstractly. -/
structure Client where
  mining_info_result : Except FetchError MiningInfoResponse

/-- Embedding of `Client::get_mining_info` (src/src/com/client.rs, lines
118-152). The spec (§1) treats the network/RPC client as an external
collaborator excluded from the core, so the network interaction is modelled by
the result it produces, carried in the `Client` value. -/
def Client.get_mining_info (c : Client) : Except FetchError MiningInfoResponse :=
  c.mining_info_result

structure RequestHandler where
  client : Client
  tx_submit_data : SubmitChannel

/-- Embedding of `RequestHandler::get_mining_info` (src/src/requests.rs, lines
88-90): `self.client.get_mining_info()`, a bare delegation. -/
def RequestHandler.get_mining_info (h : RequestHandler) :
    Except FetchError MiningInfoResponse :=
  h.client.get_mining_info

/-- Embedding of `RequestHandler::submit_nonce` (src/src/requests.rs, lines
92-114): build the `SubmissionParameters`, `unbounded_send` them on
`tx_submit_data`, log `error!("can't send submission params: ...")` if the send
fails, and return `()` either way. -/
def RequestHandler.submit_nonce (h : RequestHandler)
    (account_id nonce height block deadline_unadjusted deadline : Nat)
    (gen_sig : GenSig) : RequestHandler × List LogEvent × Unit :=
  let p : SubmissionParameters :=
    { account_id := account_id, nonce := nonce, height := height, block := block,
      deadline_unadjusted := deadline_unadjusted, deadline := deadline,
      gen_sig := gen_sig }
  match h.tx_submit_data.unbounded_send p with
  | (ch2, Except.ok _) => ({ h with tx_submit_data := ch2 }, [], ())
  | (ch2, Except.error _) =>
    ({ h with tx_submit_data := ch2 }, [LogEvent.errorCantSendParams], ())

/-- C8: `submit_nonce` is total and returns `()` for every input, and its
return carries no error value; when the internal channel is closed the
candidate is silently dropped (channel state unchanged) and the failure is
logged; when it is open the candidate is appended to the channel and nothing
is logged. -/
theorem submit_nonce_best_effort (h : RequestHandler)
    (a n ht b du d : Nat) (g : GenSig) :
    (h.submit_nonce a n ht b du d g).2.2 = () ∧
      (h.tx_submit_data.closed = true →
        (h.submit_nonce a n ht b du d g).1.tx_submit_data = h.tx_submit_data ∧
          (h.submit_nonce a n ht b du d g).2.1 = [LogEvent.errorCantSendParams]) ∧
      (h.tx_submit_data.closed = false →
        (h.submit_nonce a n ht b du d g).1.tx_submit_data.sent =
            h.tx_submit_data.sent ++
              [{ account_id := a, nonce := n, height := ht, block := b,
                 deadline_unadjusted := du, deadline := d, gen_sig := g }] ∧
          (h.submit_nonce a n ht b du d g).2.1 = []) := by
  refine ⟨rfl, ?_, ?_⟩
  · intro hc
    simp [RequestHandler.submit_nonce, SubmitChannel.unbounded_send, hc]
  · intro hc
    simp [RequestHandler.submit_nonce, SubmitChannel.unbounded_send, hc]

/-- A concrete handler whose channel is closed, with the argument values of the
repository's own `test_submit_nonce`. -/
def closedHandler : RequestHandler :=
  { client := { mining_info_result := Except.error (FetchError.Http "timeout") },
    tx_submit_data := { closed := true, sent := [] } }

/-- C8 witness: on the closed channel the candidate is dropped (channel
unchanged), the failure is logged, and unit is returned. -/
theorem submit_nonce_best_effort_witness :
    (closedHandler.submit_nonce 1337 12 111 0 7123 1193 g0).1.tx_submit_data =
        closedHandler.tx_submit_data ∧
      (closedHandler.submit_nonce 1337 12 111 0 7123 1193 g0).2.1 =
        [LogEvent.errorCantSendParams] :=
  (submit_nonce_best_effort closedHandler 1337 12 111 0 7123 1193 g0).2.1 rfl

/-- C9: the façade's `get_mining_info` is the collaborator's `get_mining_info`
unchanged: successes come back as the same `Ok` value and errors as the same
`Err` value — nothing is wrapped, swallowed or turned into a panic (the
embedding is a total function into `Except`). -/
theorem get_mining_info_passthrough (h : RequestHandler) :
    RequestHandler.get_mining_info h = Client.get_mining_info h.client ∧
      (∀ m, Client.get_mining_info h.client = Except.ok m →
        RequestHandler.get_mining_info h = Except.ok m) ∧
      (∀ e, Client.get_mining_info h.client = Except.error e →
        RequestHandler.get_mining_info h = Except.error e) :=
  ⟨rfl, fun _ hm => hm, fun _ he => he⟩

/-- C9 witness: a collaborator that fails with an HTTP timeout sees exactly
that error come out of the façade. -/
theorem get_mining_info_passthrough_witness :
    RequestHandler.get_mining_info closedHandler =
      Except.error (FetchError.Http "timeout") :=
  (get_mining_info_passthrough closedHandler).2.2 (FetchError.Http "timeout") rfl

end PocMining
